import Mathlib

/-!
Shallow embedding of the `poddle` podcast generator (`src/unnamed/part_000`,
the `create` action) and of its shared helpers, together with proofs of the
behavioural properties stated in the specification.

Conventions of the embedding:
* JS strings are Lean `String`s; where a JS string routine does not reduce in
  the Lean kernel (`String.split`), the same routine is re-expressed by
  structural recursion over the character list.
* The ambient randomness of `Math.random()` inside `shuffle` is an oracle
  `rand : Nat → Nat`; at loop index `i` the drawn index is `rand i % (i + 1)`,
  matching `Math.floor(Math.random() * (i + 1))` for `Math.random() ∈ [0,1)`.
* The AWS Polly collaborator is an oracle `responses : List (Option β)`; a
  `none` entry models a response with no `AudioStream`, which the code turns
  into a thrown `No audio stream` error.
* Clip files are identified by the phrase they were synthesized from: the
  code writes one uniquely-named file per phrase, in phrase order, so path
  `i` corresponds positionally to phrase `i`.
-/

namespace Poddle

/-- The `POLLY_VOICES` table from the source, as an association list. -/
def POLLY_VOICES : List (String × List String) :=
  [ ("en-US", ["Ivy", "Joanna", "Kendra", "Kimberly", "Salli", "Joey",
               "Justin", "Kevin", "Matthew", "Ruth", "Stephen"]),
    ("fr-FR", ["Lea", "Remi"]),
    ("de-DE", ["Vicki", "Daniel"]),
    ("it-IT", ["Bianca", "Adriano"]),
    ("ja-JP", ["Takumi", "Kazuha", "Tomoko"]),
    ("ko-KR", ["Seoyeon"]),
    ("pt-BR", ["Camila", "Vitoria", "Thiago"]),
    ("es-ES", ["Lucia", "Sergio"]),
    ("es-MX", ["Mia", "Andres"]),
    ("es-US", ["Lupe", "Pedro"]),
    ("yue-CN", ["Hiujin"]),
    ("cmn-CN", ["Zhiyu"]) ]

/-- `POLLY_VOICES[lang]`: `none` models the `undefined` result of indexing
the JS object with an unsupported language tag. -/
def voicesFor (lang : String) : Option (List String) :=
  POLLY_VOICES.lookup lang

/-- The input document read by the `create` action (`readJSON`). -/
structure PodcastSpec where
  title : String
  set : List (String × String)
  lang : String
  hostLang : Option String

/-- JS `str.split(' ')` over the character list: splits at every space,
keeping empty fragments, and yields `[""]` on the empty string. -/
def splitSpaces : List Char → List (List Char)
  | [] => [[]]
  | c :: cs =>
    let r := splitSpaces cs
    if c = ' ' then [] :: r
    else
      match r with
      | [] => [[c]]
      | w :: ws => (c :: w) :: ws

/-- One word of `pascalCase`: `word[0].toUpperCase() + word.slice(1)`.
`Char.toUpper` matches JS `toUpperCase` on the basic-latin speaker names the
program deals in.  JS throws on an empty word (`word[0]` is `undefined`);
the model keeps the word empty, a case no claim exercises. -/
def pascalWord : List Char → List Char
  | [] => []
  | c :: cs => c.toUpper :: cs

/-- `.join(' ')`. -/
def joinSpaces : List (List Char) → List Char
  | [] => []
  | [w] => w
  | w :: ws => w ++ ' ' :: joinSpaces ws

/-- The `pascalCase` helper from the source. -/
def pascalCase (s : String) : String :=
  ⟨joinSpaces ((splitSpaces s.data).map pascalWord)⟩

/-- The apostrophe character, used to spell the quiz-intro sentence. -/
def apostrophe : Char := Char.ofNat 39

/-- The fixed quiz-intro sentence pushed as the second phrase:
`Now it's time for a quiz! Say the following phrases in Spanish:`. -/
def quizIntroText : String :=
  "Now it" ++ String.singleton apostrophe ++
    "s time for a quiz! Say the following phrases in Spanish:"

/-- The `phrases` array: `[true, title]`, `[true, quizIntro]`, then for every
`[learning, fluent]` entry of `set` the two pushes `[false, learning]`,
`[true, fluent]`.  The boolean is `isHostLang`. -/
def phrases (p : PodcastSpec) : List (Bool × String) :=
  (true, p.title) :: (true, quizIntroText) ::
    p.set.flatMap (fun q => [(false, q.1), (true, q.2)])

/-- Observable events of the request-issuing loop: a 1-second pause
(`await setTimeout`), or the synthesis request for phrase `i`. -/
inductive Ev where
  | pause : Ev
  | request : Nat → Bool × String → Ev
deriving DecidableEq, Repr

/-- The body of `for (const [i, [isHostLang, text]] of phrases.entries())`:
pause first when `i % 8 === 7`, then issue the request. -/
def requestBlock (e : Nat × (Bool × String)) : List Ev :=
  (if e.1 % 8 == 7 then [Ev.pause] else []) ++ [Ev.request e.1 e.2]

/-- The event trace of the whole request-issuing loop. -/
def issueEvents (ph : List (Bool × String)) : List Ev :=
  ph.enum.flatMap requestBlock

/-- Is this event a pause? -/
def isPause : Ev → Bool
  | Ev.pause => true
  | Ev.request _ _ => false

/-- The request indices that are immediately preceded by a pause event. -/
def pausedIndices : List Ev → List Nat
  | [] => []
  | Ev.pause :: rest =>
    (match rest with
     | Ev.request i _ :: _ => [i]
     | _ => []) ++ pausedIndices rest
  | Ev.request _ _ :: rest => pausedIndices rest

/-- One step of the `shuffle` loop body: swap positions `i` and `j`.  Both
indices are in range whenever the source runs this, and `List.set` ignores
out-of-range indices just as the JS assignments would be irrelevant there. -/
def swapIdx {α : Type} (l : List α) (i j : Nat) : List α :=
  match l[i]?, l[j]? with
  | some x, some y => (l.set i y).set j x
  | _, _ => l

/-- `for (let i = array.length - 1; i > 0; i--)`: run the body at
`i = n, n-1, …, 1`.  The drawn index is `rand i % (i + 1)`. -/
def shuffleGo {α : Type} (rand : Nat → Nat) : List α → Nat → List α
  | arr, 0 => arr
  | arr, n + 1 => shuffleGo rand (swapIdx arr (n + 1) (rand (n + 1) % (n + 2))) n

/-- The `shuffle` function (Fisher–Yates over a copy of the input). -/
def shuffle {α : Type} (rand : Nat → Nat) (l : List α) : List α :=
  shuffleGo rand l (l.length - 1)

/-- One step of the `clipPaths.reduce` pairing fold, at entry `(c, b)`:
odd index pops the last group `d` (`?? []` when none) and pushes
`[d[0], b]`; even index pushes `[b]`.  `d.take 1` renders `[d[0], b]`:
when `d` is the popped singleton this is `[d₀, b]`, and in the unreachable
`?? []` branch the JS `undefined` hole is simply absent. -/
def pairStep {α : Type} (a : List (List α)) (cb : Nat × α) : List (List α) :=
  if cb.1 % 2 == 1 then
    let d := a.getLast?.getD []
    a.dropLast ++ [d.take 1 ++ [cb.2]]
  else
    a ++ [[cb.2]]

/-- The `clipPairs` reduce from the source. -/
def clipPairs {α : Type} (paths : List α) : List (List α) :=
  paths.enum.foldl pairStep []

/-- Reference reformulation of the pairing: chunks of two, a trailing
singleton when the length is odd.  Proved equal to `clipPairs` below. -/
def chunk2 {α : Type} : List α → List (List α)
  | [] => []
  | [x] => [[x]]
  | x :: y :: l => [x, y] :: chunk2 l

/-- A manifest line: a clip file, the shared silence file, or the JS
`undefined` that leaks into the list when a group is missing a member. -/
inductive Entry (α : Type) where
  | clip : α → Entry α
  | silence : Entry α
  | undef : Entry α
deriving DecidableEq, Repr

/-- `([es, en]) => [en, es, es, en, es, es, SILENCE]` under JS array
destructuring (missing components become `undefined`). -/
def drillBlock {α : Type} : List α → List (Entry α)
  | es :: en :: _ =>
    [Entry.clip en, Entry.clip es, Entry.clip es, Entry.clip en,
     Entry.clip es, Entry.clip es, Entry.silence]
  | [es] =>
    [Entry.undef, Entry.clip es, Entry.clip es, Entry.undef,
     Entry.clip es, Entry.clip es, Entry.silence]
  | [] =>
    [Entry.undef, Entry.undef, Entry.undef, Entry.undef,
     Entry.undef, Entry.undef, Entry.silence]

/-- `([es, en]) => [en, SILENCE, SILENCE, es, SILENCE]` under JS array
destructuring. -/
def quizBlock {α : Type} : List α → List (Entry α)
  | es :: en :: _ =>
    [Entry.clip en, Entry.silence, Entry.silence, Entry.clip es, Entry.silence]
  | [es] =>
    [Entry.undef, Entry.silence, Entry.silence, Entry.clip es, Entry.silence]
  | [] =>
    [Entry.undef, Entry.silence, Entry.silence, Entry.undef, Entry.silence]

/-- `shuffle(clipPairs).slice(0, 7)`. -/
def quizSelection {α : Type} (rand : Nat → Nat) (pairs : List (List α)) :
    List (List α) :=
  (shuffle rand pairs).take 7

/-- The `fileList` assembly: shift the title and quiz paths off the front,
pair the rest, then concatenate title block, drill blocks, quiz-intro block
and quiz blocks.  Lists shorter than two model the `shift() as string`
`undefined` casts. -/
def assemble {α : Type} (rand : Nat → Nat) (paths : List α) : List (Entry α) :=
  match paths with
  | t :: q :: rest =>
    [Entry.clip t, Entry.silence]
      ++ (clipPairs rest).flatMap drillBlock
      ++ [Entry.clip q, Entry.silence]
      ++ (quizSelection rand (clipPairs rest)).flatMap quizBlock
  | [t] => [Entry.clip t, Entry.silence, Entry.undef, Entry.silence]
  | [] => [Entry.undef, Entry.silence, Entry.undef, Entry.silence]

/-- The manifest produced for a `PodcastSpec`: clip files are labelled by
the phrase they were synthesized from (paths are fresh and positional). -/
def manifest (rand : Nat → Nat) (p : PodcastSpec) : List (Entry (Bool × String)) :=
  assemble rand (phrases p)

/-- Project a clip group of the shape produced by the pairing step back to
the input phrase pair it came from: the texts of the learning and fluent
clips.  Groups too short to have come from a pair map to a dummy. -/
def pairOf : List (Bool × String) → String × String
  | (_, l) :: (_, f) :: _ => (l, f)
  | _ => ("", "")

/-- The error taxonomy of a run.  `invalidVoice` is the
`No speaker named …` exit, `typeError` the JS crash from indexing the voice
table with an unsupported tag, `noAudioStream` the thrown
`No audio stream` rejection. -/
inductive RunError where
  | invalidVoice : String → String → RunError
  | typeError : RunError
  | noAudioStream : RunError
deriving DecidableEq, Repr

/-- One arm of the speaker validation: a provided name must be a member of
the voice list of the given language. -/
def checkSpeaker (name? : Option String) (lang : String) : Except RunError Unit :=
  match name? with
  | none => Except.ok ()
  | some n =>
    match voicesFor lang with
    | none => Except.error RunError.typeError
    | some vs =>
      if n ∈ vs then Except.ok () else Except.error (RunError.invalidVoice n lang)

/-- The `if (options.host && …) … else if (options.guest && …)` validation:
the host check runs against `hostLang ?? 'en-US'`, and the guest check runs
only when the host check did not exit. -/
def validateSpeakers (host? guest? : Option String) (lang : String)
    (hostLang? : Option String) : Except RunError Unit :=
  match checkSpeaker host? (hostLang?.getD "en-US") with
  | Except.error e => Except.error e
  | Except.ok () => checkSpeaker guest? lang

/-- `Promise.all` over the per-request `then` handlers: the first response
with no audio stream rejects the whole batch. -/
def collectClips {β : Type} : List (Option β) → Except RunError (List β)
  | [] => Except.ok []
  | none :: _ => Except.error RunError.noAudioStream
  | some b :: rest => (collectClips rest).map (fun l => b :: l)

/-- A whole `create` run, as (synthesis requests issued, outcome).  Speaker
names are pascal-cased before validation, exactly as in the source; no
request is issued when validation exits, and all requests (one per phrase,
in phrase order) are issued before any response is inspected. -/
def createRunT {β : Type} (rand : Nat → Nat) (host? guest? : Option String)
    (p : PodcastSpec) (responses : List (Option β)) :
    List (Bool × String) × Except RunError (List (Entry (Bool × String))) :=
  match validateSpeakers (host?.map pascalCase) (guest?.map pascalCase)
      p.lang p.hostLang with
  | Except.error e => ([], Except.error e)
  | Except.ok () =>
    (phrases p,
      match collectClips responses with
      | Except.error e => Except.error e
      | Except.ok _ => Except.ok (manifest rand p))

/-! ## The pairing fold

`clipPairs` is the index-driven `reduce` from the source; `chunk2` is its
direct recursive description.  The equivalence below is the workhorse for
every claim about pairing. -/

theorem foldl_pairStep {α : Type} :
    ∀ (l : List α) (k : Nat) (acc : List (List α)), k % 2 = 0 →
      (List.enumFrom k l).foldl pairStep acc = acc ++ chunk2 l
  | [], _, acc, _ => by simp [chunk2]
  | [x], k, acc, hk => by
    have h1 : (k % 2 == 1) = false := by simp [hk]
    simp [List.enumFrom_cons, pairStep, h1, chunk2]
  | x :: y :: l, k, acc, hk => by
    have h1 : (k % 2 == 1) = false := by simp [hk]
    have hx : (k + 1) % 2 = 1 := by omega
    have h2 : ((k + 1) % 2 == 1) = true := by simp [hx]
    rw [List.enumFrom_cons, List.enumFrom_cons, List.foldl_cons, List.foldl_cons]
    have e1 : pairStep acc (k, x) = acc ++ [[x]] := by simp [pairStep, h1]
    have e2 : pairStep (acc ++ [[x]]) (k + 1, y) = acc ++ [[x, y]] := by
      simp [pairStep, h2, List.getLast?_concat, List.dropLast_concat]
    rw [e1, e2, foldl_pairStep l (k + 2) (acc ++ [[x, y]]) (by omega)]
    simp [chunk2]

theorem clipPairs_eq_chunk2 {α : Type} (l : List α) : clipPairs l = chunk2 l := by
  have h := foldl_pairStep l 0 [] rfl
  simpa using h

theorem chunk2_flatMap {σ α : Type} (f g : σ → α) :
    ∀ s : List σ, chunk2 (s.flatMap fun q => [f q, g q]) = s.map fun q => [f q, g q]
  | [] => rfl
  | q :: s => by
    rw [List.flatMap_cons,
      show ([f q, g q] ++ s.flatMap fun r => [f r, g r])
        = f q :: g q :: (s.flatMap fun r => [f r, g r]) from rfl]
    simp only [chunk2, List.map_cons]
    rw [chunk2_flatMap f g s]

theorem chunk2_length {α : Type} : ∀ l : List α, (chunk2 l).length = (l.length + 1) / 2
  | [] => by simp [chunk2]
  | [_] => by simp [chunk2]
  | _ :: _ :: l => by
    have ih := chunk2_length l
    simp only [chunk2, List.length_cons, ih]
    omega

theorem chunk2_getElem {α : Type} :
    ∀ (i : Nat) (l : List α) (x y : α), l[2 * i]? = some x → l[2 * i + 1]? = some y →
      (chunk2 l)[i]? = some [x, y]
  | 0, [], x, y, hx, _ => by simp at hx
  | 0, [_], x, y, _, hy => by simp at hy
  | 0, a :: b :: l, x, y, hx, hy => by
    simp at hx hy
    subst hx
    subst hy
    simp [chunk2]
  | i + 1, [], x, y, hx, _ => by simp at hx
  | i + 1, [_], x, y, hx, _ => by
    rw [show 2 * (i + 1) = 2 * i + 1 + 1 by omega] at hx
    simp at hx
  | i + 1, a :: b :: l, x, y, hx, hy => by
    rw [show 2 * (i + 1) = 2 * i + 1 + 1 by omega, List.getElem?_cons_succ,
      List.getElem?_cons_succ] at hx
    rw [show 2 * (i + 1) + 1 = 2 * i + 1 + 1 + 1 by omega, List.getElem?_cons_succ,
      List.getElem?_cons_succ] at hy
    simp only [chunk2, List.getElem?_cons_succ]
    exact chunk2_getElem i l x y hx hy

theorem flatMap_pair_length {σ α : Type} (f g : σ → α) :
    ∀ s : List σ, (s.flatMap fun q => [f q, g q]).length = 2 * s.length
  | [] => rfl
  | q :: s => by
    simp only [List.flatMap_cons, List.length_append, List.length_cons, List.length_nil,
      flatMap_pair_length f g s]
    omega

theorem phrases_length (p : PodcastSpec) : (phrases p).length = 2 + 2 * p.set.length := by
  simp only [phrases, List.length_cons,
    flatMap_pair_length (fun q : String × String => ((false : Bool), q.1))
      (fun q : String × String => ((true : Bool), q.2)) p.set]
  omega

/-! ## The shuffle is a permutation -/

theorem cons_set_perm {α : Type} :
    ∀ (t : List α) (k : Nat) (x y : α), t[k]? = some y →
      List.Perm (y :: t.set k x) (x :: t)
  | [], _, _, _, h => by simp at h
  | b :: t, 0, x, y, h => by
    simp at h
    subst h
    exact List.Perm.swap x b t
  | b :: t, k + 1, x, y, h => by
    simp at h
    have ih := cons_set_perm t k x y h
    exact ((List.Perm.swap b y (t.set k x)).trans (ih.cons b)).trans (List.Perm.swap x b t)

theorem set_set_perm {α : Type} :
    ∀ (l : List α) (i j : Nat) (x y : α), l[i]? = some x → l[j]? = some y →
      List.Perm ((l.set i y).set j x) l
  | [], _, _, _, _, hx, _ => by simp at hx
  | a :: t, 0, 0, x, y, hx, hy => by
    simp at hx hy
    subst hx
    subst hy
    exact List.Perm.refl _
  | a :: t, 0, j + 1, x, y, hx, hy => by
    simp at hx hy
    subst hx
    exact cons_set_perm t j a y hy
  | a :: t, i + 1, 0, x, y, hx, hy => by
    simp at hx hy
    subst hy
    exact cons_set_perm t i a x hx
  | a :: t, i + 1, j + 1, x, y, hx, hy => by
    simp at hx hy
    exact (set_set_perm t i j x y hx hy).cons a

theorem swapIdx_perm {α : Type} (l : List α) (i j : Nat) :
    List.Perm (swapIdx l i j) l := by
  unfold swapIdx
  rcases hi : l[i]? with _ | x <;> rcases hj : l[j]? with _ | y
  · exact List.Perm.refl l
  · exact List.Perm.refl l
  · exact List.Perm.refl l
  · exact set_set_perm l i j x y hi hj

theorem shuffleGo_perm {α : Type} (rand : Nat → Nat) :
    ∀ (n : Nat) (l : List α), List.Perm (shuffleGo rand l n) l
  | 0, l => List.Perm.refl l
  | n + 1, l => by
    rw [shuffleGo]
    exact (shuffleGo_perm rand n _).trans (swapIdx_perm l (n + 1) (rand (n + 1) % (n + 2)))

theorem shuffle_perm {α : Type} (rand : Nat → Nat) (l : List α) :
    List.Perm (shuffle rand l) l :=
  shuffleGo_perm rand (l.length - 1) l

/-! ## Small glue lemmas -/

theorem flatMap_congr {α β : Type} {l : List α} {f g : α → List β}
    (h : ∀ a ∈ l, f a = g a) : l.flatMap f = l.flatMap g := by
  unfold List.flatMap
  rw [List.map_congr_left h]

theorem pairOf_mk (q : String × String) :
    pairOf [((false : Bool), q.1), ((true : Bool), q.2)] = q := by
  cases q
  rfl

/-! ## Claims -/

/-- Claim C2, counterexample: for the clip list `[T, Q, A, B, C]` (five
entries, so an odd number of remaining clips) the pairing step yields two
groups, not `floor((5 − 2) / 2) = 1`: the trailing unpaired clip becomes a
singleton group instead of being dropped. -/
theorem claim2_floor_cex :
    ¬ (clipPairs ((["T", "Q", "A", "B", "C"] : List String).drop 2)).length
        = ((["T", "Q", "A", "B", "C"] : List String).length - 2) / 2 := by
  decide

/-- Claim C2, amended: the pairing step yields `ceil(m / 2) = (m + 1) / 2`
groups for `m` remaining clips (so `floor` fails on odd `m`); for every clip
list produced from a `PodcastSpec` the remaining count is even and the
original `floor((len − 2) / 2)` formula holds. -/
theorem claim2_pair_count :
    (∀ (α : Type) (l : List α), (clipPairs l).length = (l.length + 1) / 2) ∧
      (∀ p : PodcastSpec,
        (clipPairs ((phrases p).drop 2)).length = ((phrases p).length - 2) / 2) := by
  constructor
  · intro α l
    rw [clipPairs_eq_chunk2]
    exact chunk2_length l
  · intro p
    have h : (phrases p).drop 2
        = p.set.flatMap fun q => [((false : Bool), q.1), ((true : Bool), q.2)] := rfl
    rw [h, clipPairs_eq_chunk2, chunk2_length,
      flatMap_pair_length (fun q : String × String => ((false : Bool), q.1))
        (fun q : String × String => ((true : Bool), q.2)) p.set,
      phrases_length]
    omega

/-- Claim C3: the pairing step is deterministic and positional — pair `i`
consists of the clips at positions `2i+2` and `2i+3` of the full clip list,
in that order (learning first, fluent second). -/
theorem claim3_positional_pairs (α : Type) (l : List α) (i : Nat) (x y : α)
    (hx : l[2 * i + 2]? = some x) (hy : l[2 * i + 3]? = some y) :
    (clipPairs (l.drop 2))[i]? = some [x, y] := by
  rw [clipPairs_eq_chunk2]
  apply chunk2_getElem i (l.drop 2) x y
  · rw [List.getElem?_drop, show 2 + 2 * i = 2 * i + 2 by omega]
    exact hx
  · rw [List.getElem?_drop, show 2 + (2 * i + 1) = 2 * i + 3 by omega]
    exact hy

/-- Claim C3, witness: on the clip list `[T, Q, A, B, C, D]` the pairs
resolve to `(A, B)` and `(C, D)` in that order. -/
theorem claim3_witness :
    (clipPairs ((["T", "Q", "A", "B", "C", "D"] : List String).drop 2))[0]? = some ["A", "B"] ∧
      (clipPairs ((["T", "Q", "A", "B", "C", "D"] : List String).drop 2))[1]? = some ["C", "D"] :=
  ⟨claim3_positional_pairs String ["T", "Q", "A", "B", "C", "D"] 0 "A" "B" rfl rfl,
   claim3_positional_pairs String ["T", "Q", "A", "B", "C", "D"] 1 "C" "D" rfl rfl⟩

/-- Claim C5: for the input `{title: Intro, lang: es-US, hostLang: en-US,
set: [[Hola, Hello]]}` the manifest is exactly the 16-entry sequence
title, silence, Hello, Hola, Hola, Hello, Hola, Hola, silence, quiz-intro,
silence, Hello, silence, silence, Hola, silence — for every random oracle,
since the single pair leaves the shuffle no freedom. -/
theorem claim5_single_pair_manifest (rand : Nat → Nat) :
    manifest rand
        { title := "Intro", set := [("Hola", "Hello")],
          lang := "es-US", hostLang := some "en-US" }
      = [Entry.clip (true, "Intro"), Entry.silence,
         Entry.clip (true, "Hello"), Entry.clip (false, "Hola"), Entry.clip (false, "Hola"),
         Entry.clip (true, "Hello"), Entry.clip (false, "Hola"), Entry.clip (false, "Hola"),
         Entry.silence,
         Entry.clip (true, quizIntroText), Entry.silence,
         Entry.clip (true, "Hello"), Entry.silence, Entry.silence,
         Entry.clip (false, "Hola"), Entry.silence] := rfl

/-- Claim C6: for every `PodcastSpec` with an empty `set`, the manifest is
exactly title clip, silence, quiz-intro clip, silence. -/
theorem claim6_empty_set (rand : Nat → Nat) (p : PodcastSpec) (h : p.set = []) :
    manifest rand p
      = [Entry.clip (true, p.title), Entry.silence,
         Entry.clip (true, quizIntroText), Entry.silence] := by
  obtain ⟨t, s, lg, hl⟩ := p
  have hs : s = [] := h
  subst hs
  rfl

/-- Claim C6, witness: the empty-set manifest at a concrete spec. -/
theorem claim6_witness :
    manifest (fun _ => 0) { title := "T", set := [], lang := "es-US", hostLang := none }
      = [Entry.clip (true, "T"), Entry.silence,
         Entry.clip (true, quizIntroText), Entry.silence] :=
  claim6_empty_set (fun _ => 0) _ rfl

/-- Claim C1: for every spec with `N` pairs the manifest is, in order, the
title clip and a silence; `N` seven-entry drill blocks
`(fluent, learning, learning, fluent, learning, learning, silence)`, one per
pair in original input order; the quiz-intro clip and a silence; and
`min(N, 7)` five-entry quiz blocks
`(fluent, silence, silence, learning, silence)` over a selection `sel` of
distinct pairs (a sub-permutation of the input pair list). -/
theorem claim1_manifest_structure (rand : Nat → Nat) (p : PodcastSpec) :
    ∃ sel : List (String × String),
      sel.Subperm p.set ∧ sel.length = min p.set.length 7 ∧
      manifest rand p =
        [Entry.clip (true, p.title), Entry.silence]
        ++ (p.set.flatMap fun q =>
            [Entry.clip (true, q.2), Entry.clip (false, q.1), Entry.clip (false, q.1),
             Entry.clip (true, q.2), Entry.clip (false, q.1), Entry.clip (false, q.1),
             Entry.silence])
        ++ [Entry.clip (true, quizIntroText), Entry.silence]
        ++ (sel.flatMap fun q =>
            [Entry.clip (true, q.2), Entry.silence, Entry.silence,
             Entry.clip (false, q.1), Entry.silence]) := by
  have hman : manifest rand p =
      [Entry.clip (true, p.title), Entry.silence]
      ++ (clipPairs (p.set.flatMap fun q =>
            [((false : Bool), q.1), ((true : Bool), q.2)])).flatMap drillBlock
      ++ [Entry.clip (true, quizIntroText), Entry.silence]
      ++ (quizSelection rand (clipPairs (p.set.flatMap fun q =>
            [((false : Bool), q.1), ((true : Bool), q.2)]))).flatMap quizBlock := rfl
  have hcp : clipPairs (p.set.flatMap fun q =>
        [((false : Bool), q.1), ((true : Bool), q.2)])
      = p.set.map fun q => [((false : Bool), q.1), ((true : Bool), q.2)] := by
    rw [clipPairs_eq_chunk2]
    exact chunk2_flatMap (fun q : String × String => ((false : Bool), q.1))
      (fun q : String × String => ((true : Bool), q.2)) p.set
  have hdrill : (p.set.map fun q =>
        [((false : Bool), q.1), ((true : Bool), q.2)]).flatMap drillBlock
      = p.set.flatMap fun q =>
          [Entry.clip (true, q.2), Entry.clip (false, q.1), Entry.clip (false, q.1),
           Entry.clip (true, q.2), Entry.clip (false, q.1), Entry.clip (false, q.1),
           Entry.silence] := by
    rw [List.flatMap_map]
    exact flatMap_congr fun a _ => rfl
  have hshuffle := shuffle_perm rand
    (p.set.map fun q => [((false : Bool), q.1), ((true : Bool), q.2)])
  have hsub : (quizSelection rand (p.set.map fun q =>
        [((false : Bool), q.1), ((true : Bool), q.2)])).Subperm
      (p.set.map fun q => [((false : Bool), q.1), ((true : Bool), q.2)]) :=
    (List.take_sublist 7 _).subperm.trans hshuffle.subperm
  have hmem : ∀ x ∈ quizSelection rand (p.set.map fun q =>
        [((false : Bool), q.1), ((true : Bool), q.2)]),
      ∃ q ∈ p.set, x = [((false : Bool), q.1), ((true : Bool), q.2)] := by
    intro x hx
    have hx2 := hsub.subset hx
    rw [List.mem_map] at hx2
    obtain ⟨q, hq, he⟩ := hx2
    exact ⟨q, hq, he.symm⟩
  refine ⟨(quizSelection rand (p.set.map fun q =>
      [((false : Bool), q.1), ((true : Bool), q.2)])).map pairOf, ?_, ?_, ?_⟩
  · obtain ⟨v, hv1, hv2⟩ := hsub
    refine ⟨v.map pairOf, hv1.map pairOf, ?_⟩
    have hsl := hv2.map pairOf
    rw [List.map_map] at hsl
    rwa [show (pairOf ∘ fun q : String × String =>
        [((false : Bool), q.1), ((true : Bool), q.2)]) = id
      from funext fun q => pairOf_mk q, List.map_id] at hsl
  · rw [List.length_map]
    show ((shuffle rand _).take 7).length = _
    rw [List.length_take, hshuffle.length_eq, List.length_map, Nat.min_comm]
  · rw [hman, hcp, hdrill, List.flatMap_map]
    have hquiz : (quizSelection rand (p.set.map fun q =>
          [((false : Bool), q.1), ((true : Bool), q.2)])).flatMap quizBlock
        = (quizSelection rand (p.set.map fun q =>
            [((false : Bool), q.1), ((true : Bool), q.2)])).flatMap fun x =>
            [Entry.clip (true, (pairOf x).2), Entry.silence, Entry.silence,
             Entry.clip (false, (pairOf x).1), Entry.silence] := by
      apply flatMap_congr
      intro x hx
      obtain ⟨q, _, rfl⟩ := hmem x hx
      rfl
    rw [hquiz]

/-- Claim C9: the quiz-drill selection is a sub-permutation of the pair
list of length `min(N, 7)`; in particular for at most seven pairs it is a
full permutation of the pair list. -/
theorem claim9_quiz_selection (α : Type) (rand : Nat → Nat) (pairs : List (List α)) :
    (quizSelection rand pairs).Subperm pairs ∧
      (quizSelection rand pairs).length = min pairs.length 7 ∧
      (pairs.length ≤ 7 → List.Perm (quizSelection rand pairs) pairs) := by
  have hs := shuffle_perm rand pairs
  refine ⟨(List.take_sublist 7 _).subperm.trans hs.subperm, ?_, ?_⟩
  · show ((shuffle rand pairs).take 7).length = _
    rw [List.length_take, hs.length_eq, Nat.min_comm]
  · intro h7
    show List.Perm ((shuffle rand pairs).take 7) pairs
    rw [List.take_of_length_le (by rw [hs.length_eq]; omega)]
    exact hs

/-- Claim C9, witness: a two-pair list is fully permuted into the quiz
selection. -/
theorem claim9_witness :
    (quizSelection (fun _ => 0) ([[1, 2], [3, 4]] : List (List Nat))).Subperm
        [[1, 2], [3, 4]] ∧
      (quizSelection (fun _ => 0) ([[1, 2], [3, 4]] : List (List Nat))).length
        = min 2 7 ∧
      List.Perm (quizSelection (fun _ => 0) ([[1, 2], [3, 4]] : List (List Nat)))
        [[1, 2], [3, 4]] := by
  have h := claim9_quiz_selection Nat (fun _ => 0) [[1, 2], [3, 4]]
  exact ⟨h.1, h.2.1, h.2.2 (by decide)⟩

/-! ## Pacing of the request loop -/

theorem pausedIndices_issue :
    ∀ (ph : List (Bool × String)) (k : Nat),
      pausedIndices ((List.enumFrom k ph).flatMap requestBlock)
        = (List.range' k ph.length).filter fun i => i % 8 == 7
  | [], _ => rfl
  | p :: ph, k => by
    rw [List.enumFrom_cons, List.flatMap_cons, List.length_cons, List.range'_succ]
    by_cases hk : k % 8 = 7
    · have h8 : (k % 8 == 7) = true := by simp [hk]
      simp [requestBlock, h8, pausedIndices, List.filter_cons,
        pausedIndices_issue ph (k + 1)]
    · have h8 : (k % 8 == 7) = false := by simp [hk]
      simp [requestBlock, h8, pausedIndices, List.filter_cons,
        pausedIndices_issue ph (k + 1)]

theorem countP_pause_issue :
    ∀ (ph : List (Bool × String)) (k : Nat),
      ((List.enumFrom k ph).flatMap requestBlock).countP isPause
        = ((List.range' k ph.length).filter fun i => i % 8 == 7).length
  | [], _ => rfl
  | p :: ph, k => by
    rw [List.enumFrom_cons, List.flatMap_cons, List.countP_append, List.length_cons,
      List.range'_succ]
    by_cases hk : k % 8 = 7
    · have h8 : (k % 8 == 7) = true := by simp [hk]
      simp [requestBlock, h8, isPause, List.countP_cons, List.filter_cons,
        countP_pause_issue ph (k + 1)]
      omega
    · have h8 : (k % 8 == 7) = false := by simp [hk]
      simp [requestBlock, h8, isPause, List.countP_cons, List.filter_cons,
        countP_pause_issue ph (k + 1)]

/-- Claim C4: in a batch of 17 phrase entries, the request loop pauses
exactly before issuing the requests at 0-indexed positions 7 and 15, and
there are exactly two pause events in the whole trace. -/
theorem claim4_pause_schedule (ph : List (Bool × String)) (h : ph.length = 17) :
    pausedIndices (issueEvents ph) = [7, 15] ∧
      (issueEvents ph).countP isPause = 2 := by
  have h1 := pausedIndices_issue ph 0
  have h2 := countP_pause_issue ph 0
  rw [h] at h1 h2
  have hf : ((List.range' 0 17).filter fun i => i % 8 == 7) = [7, 15] := by decide
  rw [hf] at h1 h2
  exact ⟨h1, h2⟩

/-- Claim C4, witness: the pause schedule at a concrete 17-entry batch. -/
theorem claim4_witness :
    pausedIndices (issueEvents (List.replicate 17 (true, "x"))) = [7, 15] ∧
      (issueEvents (List.replicate 17 (true, "x"))).countP isPause = 2 :=
  claim4_pause_schedule (List.replicate 17 (true, "x")) rfl

/-! ## Run-level error behaviour -/

theorem collectClips_none {β : Type} :
    ∀ rs : List (Option β), none ∈ rs →
      collectClips rs = Except.error RunError.noAudioStream
  | [], h => by simp at h
  | none :: _, _ => rfl
  | some b :: rs, h => by
    have hm : none ∈ rs := by simpa using h
    show (collectClips rs).map _ = _
    rw [collectClips_none rs hm]
    rfl

/-- Claim C7, counterexample to the claim as stated: the caller-specified
guest name `joanna` is not present in the `en-US` voice list, yet the run
does not stop with an InvalidVoice error — it issues both synthesis
requests and completes, because the name is pascal-cased to `Joanna`
before it is validated. -/
theorem claim7_counterexample :
    ((voicesFor "en-US").getD []).contains "joanna" = false ∧
      (createRunT (fun _ => 0) none (some "joanna")
          { title := "T", set := [], lang := "en-US", hostLang := none }
          ([some 0, some 0] : List (Option Nat))).1.length = 2 ∧
      (createRunT (fun _ => 0) none (some "joanna")
          { title := "T", set := [], lang := "en-US", hostLang := none }
          ([some 0, some 0] : List (Option Nat))).2.toOption.isSome = true := by
  decide

/-- Claim C7, amended: when the pascal-cased caller-specified speaker name
is not present in the voice list of the corresponding language — the host
name against `hostLang ?? en-US`, or the guest name against `lang` with
the host check passing — the run stops with an InvalidVoice error and
issues zero synthesis requests, whatever the synthesis oracle would have
answered. -/
theorem claim7_invalid_voice_blocks :
    (∀ (β : Type) (rand : Nat → Nat) (h : String) (guest? : Option String)
       (p : PodcastSpec) (responses : List (Option β)) (vs : List String),
       voicesFor (p.hostLang.getD "en-US") = some vs → pascalCase h ∉ vs →
       createRunT rand (some h) guest? p responses
         = ([], Except.error
             (RunError.invalidVoice (pascalCase h) (p.hostLang.getD "en-US")))) ∧
    (∀ (β : Type) (rand : Nat → Nat) (host? : Option String) (g : String)
       (p : PodcastSpec) (responses : List (Option β)) (vs : List String),
       checkSpeaker (host?.map pascalCase) (p.hostLang.getD "en-US") = Except.ok () →
       voicesFor p.lang = some vs → pascalCase g ∉ vs →
       createRunT rand host? (some g) p responses
         = ([], Except.error (RunError.invalidVoice (pascalCase g) p.lang))) := by
  constructor
  · intro β rand h guest? p responses vs hvs hh
    unfold createRunT validateSpeakers checkSpeaker
    rw [hvs]
    simp [hh]
  · intro β rand host? g p responses vs hhost hvs hg
    unfold createRunT validateSpeakers
    rw [hhost]
    unfold checkSpeaker
    rw [hvs]
    simp [hg]

/-- Claim C7, witness: requesting guest speaker `Joanna` for guest language
`fr-FR` terminates with InvalidVoice and zero synthesis requests, and so
does requesting host speaker `Pierre` for host language `en-US`. -/
theorem claim7_witness :
    createRunT (fun _ => 0) (some "Pierre") none
        { title := "T", set := [], lang := "es-US", hostLang := none }
        ([] : List (Option Nat))
      = ([], Except.error (RunError.invalidVoice (pascalCase "Pierre") "en-US")) ∧
    createRunT (fun _ => 0) none (some "Joanna")
        { title := "T", set := [("Bonjour", "Hello")],
          lang := "fr-FR", hostLang := none }
        ([] : List (Option Nat))
      = ([], Except.error (RunError.invalidVoice (pascalCase "Joanna") "fr-FR")) :=
  ⟨claim7_invalid_voice_blocks.1 Nat (fun _ => 0) "Pierre" none _ _ _
      rfl (by decide),
   claim7_invalid_voice_blocks.2 Nat (fun _ => 0) none "Joanna" _ _ ["Lea", "Remi"]
      rfl rfl (by decide)⟩

/-- Claim C8: once validation passes, if any synthesis response lacks an
audio payload the whole run fails with the `No audio stream` error: the
outcome carries no manifest, and the issued request list is still exactly
one request per phrase (no retry), whatever the failing position. -/
theorem claim8_no_audio_aborts {β : Type} (rand : Nat → Nat)
    (host? guest? : Option String) (p : PodcastSpec) (responses : List (Option β))
    (hv : validateSpeakers (host?.map pascalCase) (guest?.map pascalCase)
      p.lang p.hostLang = Except.ok ())
    (hn : none ∈ responses) :
    createRunT rand host? guest? p responses
      = (phrases p, Except.error RunError.noAudioStream) := by
  unfold createRunT
  rw [hv, collectClips_none responses hn]

/-- Claim C8, witness: a concrete two-response batch whose second response
has no audio aborts the run. -/
theorem claim8_witness :
    createRunT (fun _ => 0) none none
        { title := "T", set := [], lang := "es-US", hostLang := none }
        ([some 0, none] : List (Option Nat))
      = (phrases { title := "T", set := [], lang := "es-US", hostLang := none },
         Except.error RunError.noAudioStream) :=
  claim8_no_audio_aborts (fun _ => 0) none none _ _ rfl (by decide)

/-- Claim C10: the phrase at index 1 is always the fixed host-language
quiz-intro sentence, independent of the spec (in particular of `lang`), and
that sentence ends in the word `Spanish:`. -/
theorem claim10_quiz_intro_constant :
    (∀ p : PodcastSpec, (phrases p)[1]? = some (true, quizIntroText)) ∧
      "Spanish:".data.isSuffixOf quizIntroText.data = true := by
  constructor
  · intro p
    simp [phrases]
  · decide

end Poddle
